import Mathlib

/-!
# Verification of the Faramesh Node SDK core

A shallow embedding, in Lean 4, of the canonicalization / hashing module and
of the client-side lifecycle logic (retry executor, approval polling, replay
comparison, configuration) of the Faramesh Node SDK, together with theorems
settling the specification claims about them.

Modelling conventions:
* JavaScript values that canonicalization traverses are modelled by `JSValue`
  (arrays and object entry lists are the mutually defined `JSList` and
  `JSFields`, with converters from ordinary Lean lists).  A finite JavaScript
  number is represented by its ECMAScript `Number::toString` rendering (the
  exact string `value.toString()` yields), since `normalizeFloat` operates on
  that string; `NaN`, `Infinity` and `-Infinity` are separate constructors.
* Machine integers are modelled as `Nat` with explicit `% 2 ^ 32` where
  overflow matters (the SHA-256 core).
* Fallible code returns `Except`/`Option`; thrown JavaScript errors appear as
  `Except.error` values carrying the constructed message.
-/

namespace Faramesh

/-! ## JavaScript values -/

/-- A JavaScript number as seen by the canonicalizer.  A finite double is
represented by its `Number::toString` rendering (`(1000.0).toString() = "1000"`,
`(1.50).toString() = "1.5"`, `(0.0001).toString() = "0.0001"`, large/small
magnitudes use forms like `"1.2e+22"`). -/
inductive JSNumber where
  | nan
  | inf
  | negInf
  | fin (s : String)

mutual

/-- A JSON-compatible JavaScript value (plus `undefined`, which
`JSON.stringify` treats specially). -/
inductive JSValue where
  | null
  | undef
  | bool (b : Bool)
  | num (n : JSNumber)
  | str (s : String)
  | arr (xs : JSList)
  | obj (fs : JSFields)

/-- The elements of a JavaScript array, in order. -/
inductive JSList where
  | nil
  | cons (v : JSValue) (tl : JSList)

/-- The own enumerable string-keyed entries of a JavaScript object, in
enumeration order; a JavaScript object cannot hold two entries with the same
key. -/
inductive JSFields where
  | nil
  | cons (k : String) (v : JSValue) (tl : JSFields)

end

/-- Build a `JSList` from a Lean list. -/
def JSList.ofList : List JSValue → JSList
  | [] => .nil
  | v :: tl => .cons v (JSList.ofList tl)

/-- Build `JSFields` from a Lean list of entries. -/
def JSFields.ofList : List (String × JSValue) → JSFields
  | [] => .nil
  | kv :: tl => .cons kv.1 kv.2 (JSFields.ofList tl)

/-- The keys of object entries, in enumeration order (`Object.keys`). -/
def JSFields.keys : JSFields → List String
  | .nil => []
  | .cons k _ tl => k :: JSFields.keys tl

/-- Errors surfaced by the canonicalization module: `CanonicalizeError`
(thrown by the module itself) versus the `SyntaxError` that
`JSON.parse(JSON.stringify(undefined))` raises. -/
inductive CanonErr where
  | canonicalizeError (msg : String)
  | syntaxError (msg : String)
deriving DecidableEq, Repr

instance {ε α : Type} [DecidableEq ε] [DecidableEq α] : DecidableEq (Except ε α) := fun a b =>
  match a, b with
  | .ok x, .ok y => if h : x = y then .isTrue (by rw [h]) else .isFalse (by simp [h])
  | .error x, .error y => if h : x = y then .isTrue (by rw [h]) else .isFalse (by simp [h])
  | .ok _, .error _ => .isFalse (by simp)
  | .error _, .ok _ => .isFalse (by simp)

/-! ## JavaScript primitives used by the module

`parseInt(s, 10)`: skip leading whitespace, optional sign, longest run of
decimal digits; `none` models the `NaN` result. -/

def leadingDecDigits (cs : List Char) : List Char := cs.takeWhile (fun c => c.isDigit)

def decValue (cs : List Char) : Nat := cs.foldl (fun acc c => acc * 10 + (c.toNat - 48)) 0

def jsParseInt (s : String) : Option Int :=
  let cs := s.data.dropWhile (fun c => c == ' ' || c == '\t' || c == '\n' || c == '\r')
  match cs with
  | '-' :: rest =>
      let ds := leadingDecDigits rest
      if ds.isEmpty then none else some (-(decValue ds : Int))
  | '+' :: rest =>
      let ds := leadingDecDigits rest
      if ds.isEmpty then none else some (decValue ds : Int)
  | _ =>
      let ds := leadingDecDigits cs
      if ds.isEmpty then none else some (decValue ds : Int)

/-- `parseFloat` restricted to the plain decimal forms that reach it here
(optional sign, decimal digits, optional fraction); `none` models `NaN`. -/
def jsParseFloat (s : String) : Option ℚ :=
  let cs := s.data.dropWhile (fun c => c == ' ' || c == '\t' || c == '\n' || c == '\r')
  let signAndRest : Bool × List Char :=
    match cs with
    | '-' :: rest => (true, rest)
    | '+' :: rest => (false, rest)
    | _ => (false, cs)
  let intDigits := leadingDecDigits signAndRest.2
  let afterInt := signAndRest.2.drop intDigits.length
  let fracDigits :=
    match afterInt with
    | '.' :: rest => leadingDecDigits rest
    | _ => []
  if intDigits.isEmpty ∧ fracDigits.isEmpty then none
  else
    let mag : ℚ := (decValue intDigits : ℚ) + (decValue fracDigits : ℚ) / ((10 : ℚ) ^ fracDigits.length)
    some (if signAndRest.1 then -mag else mag)

/-- JavaScript string truthiness for an optional string: `undefined` and `""`
are falsy. -/
def jsTruthy (s : Option String) : Option String :=
  match s with
  | some v => if v = "" then none else some v
  | none => none

/-- `a || b` for an optional string `a` and a string default `b`. -/
def jsOrStr (a : Option String) (b : String) : String :=
  match jsTruthy a with
  | some v => v
  | none => b

/-- `a || b` where both operands are optional strings. -/
def jsOrS (a b : Option String) : Option String :=
  match a with
  | some v => if v = "" then b else some v
  | none => b

/-- `a || b` for JavaScript numbers modelled as `Option ℚ` (`none` models both
`undefined` and `NaN`, which `||` conflates; `0` is falsy). -/
def jsOrN (a b : Option ℚ) : Option ℚ :=
  match a with
  | some q => if q = 0 then b else some q
  | none => b

/-- Does the character sequence start with `c`? -/
def headIs (c : Char) : List Char → Bool
  | x :: _ => x == c
  | [] => false

/-- Remove the first occurrence of `c` (JavaScript
`String.prototype.replace` with a one-character string pattern and an empty
replacement). -/
def removeFirst (c : Char) : List Char → List Char
  | [] => []
  | x :: xs => if x == c then xs else x :: removeFirst c xs

/-- `String.prototype.split` with a one-character separator. -/
def splitOnChar (c : Char) : List Char → List (List Char)
  | [] => [[]]
  | x :: xs =>
      let r := splitOnChar c xs
      if x == c then [] :: r
      else
        match r with
        | [] => [[x]]
        | h :: t => (x :: h) :: t

/-- Is `pat` a prefix of the sequence? -/
def matchesAt : List Char → List Char → Bool
  | [], _ => true
  | _ :: _, [] => false
  | p :: ps, c :: cs => p == c && matchesAt ps cs

/-- Does the sequence contain `pat` as a contiguous subsequence? -/
def containsSub (pat : List Char) : List Char → Bool
  | [] => matchesAt pat []
  | c :: cs => matchesAt pat (c :: cs) || containsSub pat cs

/-- Substring test (`String.prototype.includes`). -/
def strContainsSubstr (s pat : String) : Bool := containsSub pat.data s.data

/-- ASCII lowercasing of one character (all `toLowerCase` is used for here is
mapping the `E` of an exponent to `e`). -/
def charLower (c : Char) : Char :=
  if 65 ≤ c.toNat ∧ c.toNat ≤ 90 then Char.ofNat (c.toNat + 32) else c

/-! ## normalizeFloat -/

def zeros (n : Nat) : String := String.mk (List.replicate n '0')

/-- The scientific-notation expansion of `normalizeFloat`: split the lowercased
string on `e`, shift the decimal point of the mantissa by the exponent
(padding with zeros as needed), and restore the sign.  The exponent part of a
finite `Number::toString` is always a signed decimal integer, so the
`parseInt` fallback `0` is unreachable. -/
def expandExponent (str : String) : String :=
  let lowerCs := str.data.map charLower
  let parts := splitOnChar 'e' lowerCs
  let mantissa := parts.headD []
  let exponentStr := (parts.drop 1).headD []
  let exponent : Int := (jsParseInt (String.mk exponentStr)).getD 0
  let mParts := splitOnChar '.' mantissa
  let intPart := removeFirst '-' (mParts.headD [])
  let fracPart := (mParts.drop 1).headD []
  let isNegative := headIs '-' str.data
  let res : List Char :=
    if 0 < exponent then
      let e := exponent.toNat
      if fracPart.length ≤ e then
        intPart ++ fracPart ++ List.replicate (e - fracPart.length) '0'
      else
        intPart ++ fracPart.take e ++ '.' :: fracPart.drop e
    else
      let absExp := exponent.natAbs
      let allDigits := intPart ++ fracPart
      if allDigits.length ≤ absExp then
        '0' :: '.' :: (List.replicate (absExp - allDigits.length) '0' ++ allDigits)
      else
        allDigits.take (allDigits.length - absExp) ++ '.' :: allDigits.drop (allDigits.length - absExp)
  String.mk (if isNegative ∧ ¬ headIs '-' res then '-' :: res else res)

/-- `str.replace` with the anchored pattern "optional dot, then one or more
zeros, then end of string": drops the trailing run of zeros and, when present,
the decimal point immediately before that run. -/
def stripTrailingZeros (s : String) : String :=
  if s.data.getLast? == some '0' then
    let r := s.data.reverse.dropWhile (fun c => c == '0')
    let r2 : List Char :=
      match r with
      | '.' :: rest => rest
      | other => other
    String.mk r2.reverse
  else s

/-- The finite-number path of `normalizeFloat` (the input is the
`Number::toString` rendering; `value === 0` holds exactly when that rendering
is `"0"`, and `value < 0` exactly when it starts with `"-"`). -/
def normalizeFinite (s : String) : String :=
  if s = "0" then "0"
  else
    let str := if s.data.contains 'e' || s.data.contains 'E' then expandExponent s else s
    if str.data.contains '.' then stripTrailingZeros str else str

/-- `normalizeFloat`: canonical decimal rendering of a number, rejecting
non-finite values with a `CanonicalizeError`. -/
def normalizeFloat : JSNumber → Except CanonErr String
  | .nan => .error (.canonicalizeError "NaN is not allowed in canonical JSON")
  | .inf => .error (.canonicalizeError "Infinity is not allowed in canonical JSON")
  | .negInf => .error (.canonicalizeError "Infinity is not allowed in canonical JSON")
  | .fin s => .ok (normalizeFinite s)

/-! ## serializeString -/

/-- `code.toString(16).padStart(4, "0")` (lowercase hex). -/
def hex4 (n : Nat) : String :=
  let s := String.mk (Nat.toDigits 16 n)
  zeros (4 - s.length) ++ s

/-- `char.charCodeAt(0)`: the first UTF-16 code unit of a one-code-point
string (the high surrogate for a supplementary-plane character). -/
def jsCharCode (c : Char) : Nat :=
  if c.toNat < 0x10000 then c.toNat else 0xD800 + (c.toNat - 0x10000) / 0x400

/-- The escape applied to one character of a string being serialized. -/
def escapeChar (c : Char) : String :=
  let code := jsCharCode c
  if c = '"' then "\\\""
  else if c = '\\' then "\\\\"
  else if c.toNat = 0x08 then "\\b"
  else if c.toNat = 0x0C then "\\f"
  else if c = '\n' then "\\n"
  else if c = '\r' then "\\r"
  else if c = '\t' then "\\t"
  else if code < 0x20 then "\\u" ++ hex4 code
  else String.mk [c]

/-- `serializeString`: wrap in quotes, escaping per the standard JSON escape
set; all other characters (including non-ASCII) are emitted verbatim. -/
def serializeString (value : String) : String :=
  "\"" ++ String.join (value.data.map escapeChar) ++ "\""

/-! ## Key ordering: the default `Array.prototype.sort()` comparator

JavaScript's default sort converts elements to strings and compares sequences
of UTF-16 code units. -/

/-- The UTF-16 encoding of one scalar value (one unit below `0x10000`, a
surrogate pair at or above). -/
def charUtf16 (c : Char) : List Nat :=
  if c.toNat < 0x10000 then [c.toNat]
  else [0xD800 + (c.toNat - 0x10000) / 0x400, 0xDC00 + (c.toNat - 0x10000) % 0x400]

/-- The UTF-16 code-unit sequence of a string. -/
def strUtf16 (s : String) : List Nat := (s.data.map charUtf16).flatten

/-- Lexicographic `≤` on unit sequences. -/
def unitsLe : List Nat → List Nat → Bool
  | [], _ => true
  | _ :: _, [] => false
  | a :: as, b :: bs => if a < b then true else if b < a then false else unitsLe as bs

/-- String comparison as performed by the default `Array.sort()` comparator:
lexicographic on UTF-16 code units. -/
def jsStrLe (a b : String) : Bool := unitsLe (strUtf16 a) (strUtf16 b)

/-- Insert into a list sorted by `le`. -/
def insertSorted (le : String → String → Bool) (k : String) : List String → List String
  | [] => [k]
  | x :: xs => if le k x then k :: x :: xs else x :: insertSorted le k xs

/-- A sorting function (insertion sort).  `Array.prototype.sort()` is specified
to return a sorted permutation of its input; for duplicate-free keys (the only
inputs `Object.keys` produces) the sorted permutation is unique, so this is
extensionally the JavaScript sort. -/
def sortBy (le : String → String → Bool) : List String → List String
  | [] => []
  | x :: xs => insertSorted le x (sortBy le xs)

/-! ## serializeValue / serializeArray / serializeObject -/

def joinComma (ps : List String) : String := String.intercalate "," ps

/-- Propagate the first error of a list of serialization results, in order
(mirrors the first exception thrown in a serialization loop). -/
def seqExcept : List (Except CanonErr String) → Except CanonErr (List String)
  | [] => .ok []
  | e :: rest => do
    let v ← e
    let vs ← seqExcept rest
    pure (v :: vs)

mutual

/-- `serializeValue`, parametrized by the key comparator used for object keys
(the source uses the default `Array.sort()`; the spec-side byte-order variant
instantiates a different comparator).

The object case mirrors `serializeObject`: keys are sorted, and each entry is
rendered as `"key":value` where the value is `value[key]` (looked up among the
object's entries; the serialized results are tabulated first so that, as in
the source loop, the first error in sorted-key order is the one surfaced). -/
def serializeValueWith (keyLe : String → String → Bool) : JSValue → Except CanonErr String
  | .null => .ok "null"
  | .undef => .ok "null"
  | .bool b => .ok (if b then "true" else "false")
  | .num n => normalizeFloat n
  | .str s => .ok (serializeString s)
  | .arr xs =>
      (seqExcept (serializeListWith keyLe xs)).map
        (fun parts => "[" ++ joinComma parts ++ "]")
  | .obj fs =>
      let keys := sortBy keyLe fs.keys
      let memo := serializeFieldsWith keyLe fs
      (seqExcept (keys.map (fun k =>
          (match memo.lookup k with
           | some res => res
           | none => .ok "null").map
            (fun valStr => serializeString k ++ ":" ++ valStr)))).map
        (fun parts => "\x7b" ++ joinComma parts ++ "\x7d")

/-- Serialize the elements of an array, in order (`serializeArray`). -/
def serializeListWith (keyLe : String → String → Bool) : JSList → List (Except CanonErr String)
  | .nil => []
  | .cons v tl => serializeValueWith keyLe v :: serializeListWith keyLe tl

/-- Tabulate the serialization result of each object entry's value. -/
def serializeFieldsWith (keyLe : String → String → Bool) : JSFields → List (String × Except CanonErr String)
  | .nil => []
  | .cons k v tl => (k, serializeValueWith keyLe v) :: serializeFieldsWith keyLe tl

end

/-- `serializeValue` with the source's key order (default `Array.sort()`,
UTF-16 code-unit comparison). -/
def serializeValue (v : JSValue) : Except CanonErr String :=
  serializeValueWith jsStrLe v

mutual

/-- The deep copy `JSON.parse(JSON.stringify(obj))` performed by
`canonicalize`: non-finite numbers become `null`; `undefined` is dropped from
objects, becomes `null` in arrays, and makes the whole round trip fail at the
top level (`JSON.stringify` returns `undefined`, which `JSON.parse` rejects
with a `SyntaxError`). -/
def jsonRoundTrip : JSValue → Option JSValue
  | .null => some .null
  | .undef => none
  | .bool b => some (.bool b)
  | .num n =>
      some (match n with
        | .fin s => .num (.fin s)
        | _ => .null)
  | .str s => some (.str s)
  | .arr xs => some (.arr (jsonRoundTripList xs))
  | .obj fs => some (.obj (jsonRoundTripFields fs))

/-- Array elements whose serialization is `undefined` become `null`. -/
def jsonRoundTripList : JSList → JSList
  | .nil => .nil
  | .cons v tl => .cons ((jsonRoundTrip v).getD .null) (jsonRoundTripList tl)

/-- Object entries whose value serializes to `undefined` are dropped. -/
def jsonRoundTripFields : JSFields → JSFields
  | .nil => .nil
  | .cons k v tl =>
      match jsonRoundTrip v with
      | some v2 => .cons k v2 (jsonRoundTripFields tl)
      | none => jsonRoundTripFields tl

end

/-- `canonicalize`: deep-copy via a JSON round trip, then serialize. -/
def canonicalize (obj : JSValue) : Except CanonErr String :=
  match jsonRoundTrip obj with
  | none => .error (.syntaxError "Unexpected token u in JSON")
  | some objCopy => serializeValue objCopy

/-! ## Action-payload hashing -/

/-- The fixed ephemeral/internal field set dropped from action payloads. -/
def ACTION_EXCLUDE_FIELDS : List String :=
  ["id", "approval_token", "created_at", "updated_at", "tenant_id",
   "project_id", "version", "decision", "status", "reason", "risk_level",
   "policy_version", "policy_hash", "runtime_version", "profile_id",
   "profile_version", "profile_hash", "provenance_id", "outcome",
   "reason_code", "reason_details", "request_hash"]

/-- `canonicalizeActionPayload`: drop excluded and underscore-prefixed fields
(preserving entry order), then canonicalize. -/
def canonicalizeActionPayload (payload : List (String × JSValue)) : Except CanonErr String :=
  canonicalize (.obj (JSFields.ofList (payload.filter (fun kv =>
    !(ACTION_EXCLUDE_FIELDS.contains kv.1 || headIs '_' kv.1.data)))))

/-- The UTF-8 encoding of one scalar value. -/
def charUtf8 (c : Char) : List Nat :=
  let n := c.toNat
  if n < 0x80 then [n]
  else if n < 0x800 then [0xC0 + n / 0x40, 0x80 + n % 0x40]
  else if n < 0x10000 then [0xE0 + n / 0x1000, 0x80 + (n / 0x40) % 0x40, 0x80 + n % 0x40]
  else [0xF0 + n / 0x40000, 0x80 + (n / 0x1000) % 0x40, 0x80 + (n / 0x40) % 0x40, 0x80 + n % 0x40]

/-- The UTF-8 bytes of a string (`Buffer.from(s, "utf-8")`). -/
def strUtf8 (s : String) : List Nat := (s.data.map charUtf8).flatten

/-! ## SHA-256 (FIPS 180-4), over byte lists, words as `Nat` mod `2 ^ 32` -/

def w32 (x : Nat) : Nat := x % 4294967296

def rotr32 (n x : Nat) : Nat := w32 ((x >>> n) ||| (x <<< (32 - n)))

def smallSigma0 (x : Nat) : Nat := (rotr32 7 x) ^^^ (rotr32 18 x) ^^^ (x >>> 3)

def smallSigma1 (x : Nat) : Nat := (rotr32 17 x) ^^^ (rotr32 19 x) ^^^ (x >>> 10)

def bigSigma0 (x : Nat) : Nat := (rotr32 2 x) ^^^ (rotr32 13 x) ^^^ (rotr32 22 x)

def bigSigma1 (x : Nat) : Nat := (rotr32 6 x) ^^^ (rotr32 11 x) ^^^ (rotr32 25 x)

def shaK : List Nat :=
  [1116352408, 1899447441, 3049323471, 3921009573, 961987163, 1508970993,
   2453635748, 2870763221, 3624381080, 310598401, 607225278, 1426881987,
   1925078388, 2162078206, 2614888103, 3248222580, 3835390401, 4022224774,
   264347078, 604807628, 770255983, 1249150122, 1555081692, 1996064986,
   2554220882, 2821834349, 2952996808, 3210313671, 3336571891, 3584528711,
   113926993, 338241895, 666307205, 773529912, 1294757372, 1396182291,
   1695183700, 1986661051, 2177026350, 2456956037, 2730485921, 2820302411,
   3259730800, 3345764771, 3516065817, 3600352804, 4094571909, 275423344,
   430227734, 506948616, 659060556, 883997877, 958139571, 1322822218,
   1537002063, 1747873779, 1955562222, 2024104815, 2227730452, 2361852424,
   2428436474, 2756734187, 3204031479, 3329325298]

def shaH0 : List Nat :=
  [1779033703, 3144134277, 1013904242, 2773480762,
   1359893119, 2600822924, 528734635, 1541459225]

/-- Fixed-width big-endian byte rendering of a value. -/
def bytesBE (count value : Nat) : List Nat :=
  (List.range count).map (fun i => (value >>> (8 * (count - 1 - i))) % 256)

/-- Merkle–Damgård padding: `0x80`, zero bytes to 56 mod 64, then the bit
length as 8 big-endian bytes. -/
def shaPad (msg : List Nat) : List Nat :=
  let len := msg.length
  let zeroCount := (64 + 56 - (len + 1) % 64) % 64
  msg ++ [0x80] ++ List.replicate zeroCount 0 ++ bytesBE 8 (8 * len)

/-- Split into 64-byte blocks (`fuel` bounds the recursion; the length of the
list always suffices). -/
def blocks64 : Nat → List Nat → List (List Nat)
  | 0, _ => []
  | _, [] => []
  | fuel + 1, l => l.take 64 :: blocks64 fuel (l.drop 64)

/-- Pack bytes into big-endian 32-bit words. -/
def wordsOfBytes : List Nat → List Nat
  | b0 :: b1 :: b2 :: b3 :: rest => (((b0 * 256 + b1) * 256 + b2) * 256 + b3) :: wordsOfBytes rest
  | _ => []

/-- Extend the 16-word message schedule by `n` further words. -/
def extendSchedule : Nat → List Nat → List Nat
  | 0, w => w
  | n + 1, w =>
      let i := w.length
      let wi := w32 (smallSigma1 (w.getD (i - 2) 0) + w.getD (i - 7) 0 +
        smallSigma0 (w.getD (i - 15) 0) + w.getD (i - 16) 0)
      extendSchedule n (w ++ [wi])

/-- One compression round on the state `[a,b,c,d,e,f,g,h]`. -/
def shaRound (st : List Nat) (ki wi : Nat) : List Nat :=
  match st with
  | [a, b, c, d, e, f, g, h] =>
      let ch := (e &&& f) ^^^ ((4294967295 ^^^ e) &&& g)
      let maj := (a &&& b) ^^^ (a &&& c) ^^^ (b &&& c)
      let t1 := w32 (h + bigSigma1 e + ch + ki + wi)
      let t2 := w32 (bigSigma0 a + maj)
      [w32 (t1 + t2), a, b, c, w32 (d + t1), e, f, g]
  | other => other

/-- Compress one 64-byte block into the running hash state. -/
def shaCompress (hs : List Nat) (block : List Nat) : List Nat :=
  let w := extendSchedule 48 (wordsOfBytes block)
  let final := (List.zip shaK w).foldl (fun st kw => shaRound st kw.1 kw.2) hs
  (List.zip hs final).map (fun ab => w32 (ab.1 + ab.2))

/-- Lowercase hex rendering of a 32-bit word. -/
def hexWord (n : Nat) : String :=
  let s := String.mk (Nat.toDigits 16 n)
  zeros (8 - s.length) ++ s

/-- SHA-256 of a byte list as a 64-character lowercase hex digest. -/
def sha256hex (msg : List Nat) : String :=
  let padded := shaPad msg
  let final := (blocks64 padded.length padded).foldl shaCompress shaH0
  String.join (final.map hexWord)

/-- `computeHash`: SHA-256 hex digest of the UTF-8 bytes of the canonical
JSON string. -/
def computeHash (obj : JSValue) : Except CanonErr String :=
  (canonicalize obj).map (fun s => sha256hex (strUtf8 s))

/-- `computeRequestHash`: SHA-256 hex digest of the canonicalized action
payload (ephemeral fields dropped). -/
def computeRequestHash (payload : List (String × JSValue)) : Except CanonErr String :=
  (canonicalizeActionPayload payload).map (fun s => sha256hex (strUtf8 s))

/-! ## Spec-side definitions (for refinement comparisons) -/

/-- Modelled from the spec: "keys sorted by ordinal (byte-wise lexicographic)
comparison" — lexicographic comparison of UTF-8 byte sequences. -/
def byteLe (a b : String) : Bool := unitsLe (strUtf8 a) (strUtf8 b)

/-- Modelled from the spec: the canonicalization the spec describes, with
object keys ordered by byte-wise lexicographic (UTF-8 byte) comparison.  To be
compared with `canonicalize`, which uses the default `Array.sort()` order. -/
def canonicalizeBytewise (obj : JSValue) : Except CanonErr String :=
  match jsonRoundTrip obj with
  | none => .error (.syntaxError "Unexpected token u in JSON")
  | some objCopy => serializeValueWith byteLe objCopy

/-- Modelled from the spec: the claim's enumeration of the fixed ephemeral
exclusion set — "id, approval_token, created_at, updated_at, tenant_id,
project_id, version, decision, status, reason, risk_level, policy/profile/
runtime version and hash fields, provenance_id, outcome, reason_code,
reason_details, request_hash" (the policy/profile/runtime group being the
policy version/hash, the profile id/version/hash, and the runtime version). -/
def specEphemeralFields : List String :=
  ["id", "approval_token", "created_at", "updated_at", "tenant_id",
   "project_id", "version", "decision", "status", "reason", "risk_level",
   "policy_version", "policy_hash", "profile_id", "profile_version",
   "profile_hash", "runtime_version", "provenance_id", "outcome",
   "reason_code", "reason_details", "request_hash"]

/-- Modelled from the spec: remove every field of the ephemeral exclusion set
and every underscore-prefixed field from a payload. -/
def stripEphemeralSpec (payload : List (String × JSValue)) : List (String × JSValue) :=
  payload.filter (fun kv => !(specEphemeralFields.contains kv.1 || headIs '_' kv.1.data))

/-! ## Client error taxonomy (`types.ts`) -/

/-- The SDK error classes; each carries the constructed message, and
`genericError` additionally the optional HTTP-style status code passed to the
base `FarameshError` constructor. -/
inductive FarErr where
  | authError (msg : String)
  | notFoundError (msg : String)
  | validationError (msg : String)
  | policyError (msg : String)
  | timeoutError (msg : String)
  | deniedError (msg : String)
  | serverError (msg : String)
  | connectionError (msg : String)
  | genericError (msg : String) (statusCode : Option Nat)
deriving DecidableEq, Repr

/-! ## Transport executor (`makeRequest`) -/

/-- The response payload fields the executor inspects (policy-denial check on
the submission endpoint). -/
structure RespData where
  status : Option String := none
  decision : Option String := none
  reason : Option String := none
deriving DecidableEq, Repr

/-- The outcome of one physical attempt, as the `try` block observes it:
a response, an axios error (optional HTTP status from `error.response`,
optional `error.code`, and the error message), or a non-axios thrown error. -/
inductive Attempt where
  | success (resp : RespData)
  | axiosFailure (status : Option Nat) (code : Option String) (message : String)
  | otherFailure (message : String)
deriving DecidableEq, Repr

/-- The configuration fields `makeRequest` reads. -/
structure ExecConfig where
  baseUrl : String := "http://127.0.0.1:8000"
  timeoutMs : Nat := 30000
  maxRetries : Nat := 3
  retryBackoffFactor : ℚ := 1 / 2
deriving DecidableEq, Repr

/-- The truthy test `axiosError.response?.status && axiosError.response.status >= 500`. -/
def is5xx : Option Nat → Bool
  | some s => decide (500 ≤ s)
  | none => false

/-- `path.startsWith("/") ? path : "/" + path`. -/
def urlOfPath (path : String) : String :=
  if headIs '/' path.data then path else "/" ++ path

/-- The error thrown after the retry loop exits (lines 358–376 of the client):
with a recorded last error its message is included, otherwise the path. -/
def afterLoopFailure (cfg : ExecConfig) (path : String) (lastError : Option String) : FarErr :=
  match lastError with
  | some m =>
      .genericError ("Request failed after " ++ toString (cfg.maxRetries + 1) ++ " attempts: " ++ m) none
  | none =>
      .genericError ("Request failed after " ++ toString (cfg.maxRetries + 1) ++ " attempts on " ++ path) none

/-- The retry loop of `makeRequest`.  `script` gives the outcome of each
physical attempt (0-based); `attemptsLeft` counts the remaining loop
iterations (`maxRetries + 1` at entry), `attempt` is the loop counter and
`lastError` the recorded message of the last retried failure.  The result
pairs the surfaced outcome with the list of backoff waits performed, in
milliseconds (`retryBackoffFactor * 2 ^ attempt * 1000` each).

Branches, in source order: policy-denial check on a successful submission
response; terminal 401 / 404 / 422; 5xx retry with backoff while attempts
remain; timeout classification (`ECONNABORTED` or a message containing
"timeout"); then the generic failure — the `ECONNREFUSED` / `ENOTFOUND` /
`ETIMEDOUT` branch in the source constructs a `FarameshConnectionError` and
discards it without throwing or retrying, so control falls through to the
generic `FarameshError` throw.  A non-axios unknown error records `lastError`
and retries while attempts remain; when they do not, the loop exits and the
after-loop failure is thrown. -/
def makeRequestGo (cfg : ExecConfig) (method path : String) (script : Nat → Attempt) :
    Nat → Nat → Option String → Except FarErr RespData × List ℚ
  | 0, _, lastError => (.error (afterLoopFailure cfg path lastError), [])
  | attemptsLeft + 1, attempt, _ =>
      match script attempt with
      | .success resp =>
          if method = "POST" ∧ path = "/v1/actions" ∧
              (resp.status = some "denied" ∨
                (resp.decision = some "deny" ∧ resp.status ≠ some "pending_approval")) then
            (.error (.policyError (jsOrStr resp.reason "Action denied by policy")), [])
          else
            (.ok resp, [])
      | .axiosFailure st code msg =>
          if st = some 401 then
            (.error (.authError ("Authentication failed (401) on " ++ path ++ ": " ++ msg)), [])
          else if st = some 404 then
            (.error (.notFoundError ("Resource not found (404) on " ++ path)), [])
          else if st = some 422 then
            (.error (.validationError ("Validation error (422) on " ++ path ++ ": " ++ msg)), [])
          else if attempt < cfg.maxRetries ∧ is5xx st then
            let waitTime := cfg.retryBackoffFactor * 2 ^ attempt * 1000
            let rest := makeRequestGo cfg method path script attemptsLeft (attempt + 1) (some msg)
            (rest.1, waitTime :: rest.2)
          else if code = some "ECONNABORTED" ∨ strContainsSubstr msg "timeout" then
            (.error (.timeoutError ("Request timed out after " ++ toString cfg.timeoutMs ++ "ms: " ++
              cfg.baseUrl ++ urlOfPath path)), [])
          else
            (.error (.genericError ("Request failed: " ++ msg)
              (some ((match st with | some s => s | none => 0)))), [])
      | .otherFailure msg =>
          if attempt < cfg.maxRetries then
            let waitTime := cfg.retryBackoffFactor * 2 ^ attempt * 1000
            let rest := makeRequestGo cfg method path script attemptsLeft (attempt + 1) (some msg)
            (rest.1, waitTime :: rest.2)
          else
            (.error (afterLoopFailure cfg path (some msg)), [])

/-- `makeRequest` over a script of attempt outcomes (instrumentation callbacks
are invoked around each attempt in the source; their failures are swallowed
and they do not affect control flow, so they are not modelled). -/
def makeRequest (cfg : ExecConfig) (method path : String) (script : Nat → Attempt) :
    Except FarErr RespData × List ℚ :=
  makeRequestGo cfg method path script (cfg.maxRetries + 1) 0 none

/-! ## Actions and lifecycle operations -/

/-- The Action fields the modelled operations read. -/
structure Action where
  id : String := ""
  status : String := ""
  reason : Option String := none
  approval_token : Option String := none
  outcome : Option String := none
  reason_code : Option String := none
  request_hash : Option String := none
  policy_hash : Option String := none
  profile_hash : Option String := none
  runtime_version : Option String := none
deriving DecidableEq, Repr

/-- The result of `blockUntilApproved` (the `fuelExhausted` sentinel is an
embedding device; the entry point passes enough fuel that it is unreachable
whenever the poll interval is positive). -/
inductive BlockResult where
  | ok (a : Action)
  | err (e : FarErr)
  | fuelExhausted
deriving DecidableEq, Repr

/-- The polling loop of `blockUntilApproved` under an idealized clock: each
`getAction` is instantaneous and each sleep lasts exactly `pollIntervalMs`,
so iteration `k` begins at elapsed time `k * pollIntervalMs`.  `getAction k`
is the server snapshot observed by the `k`-th poll.

Mirrors the source loop: timeout check first (`elapsed > timeoutMs`), then
`approved` returns, `denied` fails with the server's reason, an
already-processed `allowed` / `succeeded` / `failed` returns as-is, and any
other status sleeps and polls again. -/
def blockUntilApprovedGo (getAction : Nat → Action) (pollIntervalMs timeoutMs : Nat) :
    Nat → Nat → BlockResult
  | 0, _ => .fuelExhausted
  | fuel + 1, k =>
      if timeoutMs < k * pollIntervalMs then
        .err (.timeoutError ("Timeout waiting for approval after " ++ toString timeoutMs ++ "ms"))
      else
        let action := getAction k
        if action.status = "approved" then .ok action
        else if action.status = "denied" then
          .err (.deniedError ("Action denied: " ++ jsOrStr action.reason "Action denied"))
        else if action.status = "allowed" ∨ action.status = "succeeded" ∨ action.status = "failed" then
          .ok action
        else
          blockUntilApprovedGo getAction pollIntervalMs timeoutMs fuel (k + 1)

/-- `blockUntilApproved` (with the option defaults already applied). -/
def blockUntilApproved (getAction : Nat → Action) (pollIntervalMs timeoutMs : Nat) : BlockResult :=
  blockUntilApprovedGo getAction pollIntervalMs timeoutMs (timeoutMs / pollIntervalMs + 2) 0

/-! ## approveAction / denyAction -/

/-- The body posted to `/v1/actions/{id}/approval`; `reason` is spread into
the payload only when truthy. -/
structure ApprovalPayload where
  token : String
  approve : Bool
  reason : Option String
deriving DecidableEq, Repr

/-- The HTTP calls an approval operation performs, in order. -/
inductive ClientCall where
  | getActionCall (actionId : String)
  | postApprovalCall (actionId : String) (payload : ApprovalPayload)
deriving DecidableEq, Repr

/-- `approveAction(actionId, token?, reason?)` with the server abstracted:
`fetched` is the action `getAction` would return (when that call is made) and
`postResult` the action the approval endpoint would return.  Produces the
ordered call trace and the result.  With a truthy token the fetch never
happens (`if (!token)`); without one the action is fetched and must be in
`pending_approval` with a truthy `approval_token`. -/
def approveActionRun (actionId : String) (token reason : Option String)
    (fetched : Action) (postResult : Action) : List ClientCall × Except FarErr Action :=
  match jsTruthy token with
  | some t =>
      ([.postApprovalCall actionId ⟨t, true, jsTruthy reason⟩], .ok postResult)
  | none =>
      if fetched.status ≠ "pending_approval" then
        ([.getActionCall actionId],
          .error (.genericError
            ("Action " ++ actionId ++ " is not pending approval (status: " ++ fetched.status ++ ")")
            none))
      else
        match jsTruthy fetched.approval_token with
        | none =>
            ([.getActionCall actionId],
              .error (.genericError ("Approval token not found for action " ++ actionId) none))
        | some t =>
            ([.getActionCall actionId, .postApprovalCall actionId ⟨t, true, jsTruthy reason⟩],
              .ok postResult)

/-- `denyAction`: identical to `approveAction` except `approve: false`. -/
def denyActionRun (actionId : String) (token reason : Option String)
    (fetched : Action) (postResult : Action) : List ClientCall × Except FarErr Action :=
  match jsTruthy token with
  | some t =>
      ([.postApprovalCall actionId ⟨t, false, jsTruthy reason⟩], .ok postResult)
  | none =>
      if fetched.status ≠ "pending_approval" then
        ([.getActionCall actionId],
          .error (.genericError
            ("Action " ++ actionId ++ " is not pending approval (status: " ++ fetched.status ++ ")")
            none))
      else
        match jsTruthy fetched.approval_token with
        | none =>
            ([.getActionCall actionId],
              .error (.genericError ("Approval token not found for action " ++ actionId) none))
        | some t =>
            ([.getActionCall actionId, .postApprovalCall actionId ⟨t, false, jsTruthy reason⟩],
              .ok postResult)

/-! ## replayDecision comparison -/

/-- The decision fields `replayDecision` compares. -/
structure GateDecision where
  outcome : Option String := none
  reason_code : Option String := none
  request_hash : Option String := none
  policy_hash : Option String := none
  profile_hash : Option String := none
  runtime_version : Option String := none
deriving DecidableEq, Repr

/-- The comparison artifact `replayDecision` returns. -/
structure ReplayResult where
  success : Bool
  originalOutcome : String
  replayedOutcome : String
  originalReasonCode : String
  replayedReasonCode : String
  requestHashMatch : Bool
  policyHashMatch : Bool
  profileHashMatch : Bool
  runtimeVersionMatch : Bool
  mismatches : List String
deriving DecidableEq, Repr

/-- Template-literal rendering of a possibly-undefined string. -/
def optInterp (o : Option String) : String :=
  match o with
  | some s => s
  | none => "undefined"

/-- The comparison step of `replayDecision` (lines 1087–1135): outcome and
reason code are compared after an `|| ""` default, the four provenance fields
by strict equality, and a diagnostic line is appended for each disagreement,
in that fixed order; `success` holds exactly when no mismatch was recorded. -/
def compareReplay (original : Action) (replayed : GateDecision) : ReplayResult :=
  let originalOutcome := jsOrStr original.outcome ""
  let replayedOutcome := jsOrStr replayed.outcome ""
  let originalReasonCode := jsOrStr original.reason_code ""
  let replayedReasonCode := jsOrStr replayed.reason_code ""
  let requestHashMatch := original.request_hash = replayed.request_hash
  let policyHashMatch := original.policy_hash = replayed.policy_hash
  let profileHashMatch := original.profile_hash = replayed.profile_hash
  let runtimeVersionMatch := original.runtime_version = replayed.runtime_version
  let mismatches : List String :=
    (if originalOutcome ≠ replayedOutcome then
      ["outcome: " ++ originalOutcome ++ " != " ++ replayedOutcome] else []) ++
    (if originalReasonCode ≠ replayedReasonCode then
      ["reason_code: " ++ originalReasonCode ++ " != " ++ replayedReasonCode] else []) ++
    (if ¬ requestHashMatch then ["request_hash mismatch"] else []) ++
    (if ¬ policyHashMatch then ["policy_hash mismatch (policy may have changed)"] else []) ++
    (if ¬ profileHashMatch then ["profile_hash mismatch (profile may have changed)"] else []) ++
    (if ¬ runtimeVersionMatch then
      ["runtime_version: " ++ optInterp original.runtime_version ++ " != " ++
        optInterp replayed.runtime_version] else [])
  { success := mismatches.length = 0
    originalOutcome := originalOutcome
    replayedOutcome := replayedOutcome
    originalReasonCode := originalReasonCode
    replayedReasonCode := replayedReasonCode
    requestHashMatch := requestHashMatch
    policyHashMatch := policyHashMatch
    profileHashMatch := profileHashMatch
    runtimeVersionMatch := runtimeVersionMatch
    mismatches := mismatches }

/-! ## configure -/

/-- The environment variables `configure` reads. -/
structure EnvVars where
  FARAMESH_BASE_URL : Option String := none
  FARA_API_BASE : Option String := none
  FARAMESH_TOKEN : Option String := none
  FARA_AUTH_TOKEN : Option String := none
  FARAMESH_RETRIES : Option String := none
  FARAMESH_RETRY_BACKOFF : Option String := none
deriving DecidableEq, Repr

/-- The options object passed to `configure` (every field optional; the three
instrumentation callbacks are modelled as opaque identifiers, since only their
identity is observable here). -/
structure ClientConfigOpts where
  baseUrl : Option String := none
  token : Option String := none
  timeoutMs : Option ℚ := none
  maxRetries : Option ℚ := none
  retryBackoffFactor : Option ℚ := none
  onRequestStart : Option Nat := none
  onRequestEnd : Option Nat := none
  onError : Option Nat := none
deriving DecidableEq, Repr

/-- The global configuration value `configure` builds. -/
structure ClientConfig where
  baseUrl : Option String
  token : Option String
  timeoutMs : Option ℚ
  maxRetries : Option ℚ
  retryBackoffFactor : Option ℚ
  onRequestStart : Option Nat
  onRequestEnd : Option Nat
  onError : Option Nat
deriving DecidableEq, Repr

/-- `configure(options)`: rebuilds the global configuration from the options,
the environment and built-in defaults; only the three callbacks fall back to
the previously configured value (`existingConfig?.onX`) when the option is
falsy. -/
def configure (existingConfig : Option ClientConfig) (options : ClientConfigOpts)
    (env : EnvVars) : ClientConfig :=
  { baseUrl := jsOrS options.baseUrl (jsOrS env.FARAMESH_BASE_URL
      (jsOrS env.FARA_API_BASE (some "http://127.0.0.1:8000")))
    token := jsOrS options.token (jsOrS env.FARAMESH_TOKEN env.FARA_AUTH_TOKEN)
    timeoutMs := jsOrN options.timeoutMs (some 30000)
    maxRetries := jsOrN options.maxRetries
      ((jsOrS env.FARAMESH_RETRIES (some "3")).bind (fun s => (jsParseInt s).map (fun i => (i : ℚ))))
    retryBackoffFactor := jsOrN options.retryBackoffFactor
      ((jsOrS env.FARAMESH_RETRY_BACKOFF (some "0.5")).bind jsParseFloat)
    onRequestStart := options.onRequestStart.orElse
      (fun _ => existingConfig.bind (fun c => c.onRequestStart))
    onRequestEnd := options.onRequestEnd.orElse
      (fun _ => existingConfig.bind (fun c => c.onRequestEnd))
    onError := options.onError.orElse
      (fun _ => existingConfig.bind (fun c => c.onError)) }

/-! ## Helper lemmas -/

theorem exclude_contains_eq (a : String) :
    ACTION_EXCLUDE_FIELDS.contains a = specEphemeralFields.contains a := by
  have hperm : ACTION_EXCLUDE_FIELDS.Perm specEphemeralFields := by decide
  simp only [List.contains]
  rw [Bool.eq_iff_iff]
  simp only [List.elem_iff]
  exact hperm.mem_iff

theorem blockGo_skip (ga : Nat → Action) (poll timeout : Nat) :
    ∀ (d fuel k : Nat),
      (∀ j, k ≤ j → j < k + d → (ga j).status = "pending_approval") →
      (∀ j, k ≤ j → j < k + d → j * poll ≤ timeout) →
      d < fuel →
      blockUntilApprovedGo ga poll timeout fuel k =
        blockUntilApprovedGo ga poll timeout (fuel - d) (k + d) := by
  intro d
  induction d with
  | zero => intro fuel k _ _ _; simp
  | succ d ih =>
      intro fuel k hpend htime hf
      obtain ⟨f, rfl⟩ : ∃ f, fuel = f + 1 := ⟨fuel - 1, by omega⟩
      have hk : (ga k).status = "pending_approval" := hpend k le_rfl (by omega)
      have ht : ¬ timeout < k * poll := by
        have := htime k le_rfl (by omega); omega
      have step : blockUntilApprovedGo ga poll timeout (f + 1) k =
          blockUntilApprovedGo ga poll timeout f (k + 1) := by
        simp only [blockUntilApprovedGo]
        rw [if_neg ht]
        simp [hk]
      rw [step]
      have e1 : f + 1 - (d + 1) = f - d := by omega
      have e2 : k + (d + 1) = k + 1 + d := by omega
      rw [e1, e2]
      exact ih f (k + 1) (fun j h1 h2 => hpend j (by omega) (by omega))
        (fun j h1 h2 => htime j (by omega) (by omega)) (by omega)

theorem makeGo_all5xx (cfg : ExecConfig) (method path : String)
    (st : Nat → Nat) (cd : Nat → Option String) (ms : Nat → String)
    (h500 : ∀ i, 500 ≤ st i)
    (hcd : cd cfg.maxRetries ≠ some "ECONNABORTED")
    (hms : strContainsSubstr (ms cfg.maxRetries) "timeout" = false) :
    ∀ (left attempt : Nat), attempt + left = cfg.maxRetries →
      ∀ lastError,
      makeRequestGo cfg method path (fun i => .axiosFailure (some (st i)) (cd i) (ms i))
          (left + 1) attempt lastError =
        (.error (.genericError ("Request failed: " ++ ms cfg.maxRetries) (some (st cfg.maxRetries))),
         (List.range left).map (fun j => cfg.retryBackoffFactor * 2 ^ (attempt + j) * 1000)) := by
  intro left
  induction left with
  | zero =>
      intro attempt ha lastError
      have hA : attempt = cfg.maxRetries := by omega
      rw [makeRequestGo.eq_2]
      simp only []
      rw [if_neg (by intro h; injection h with h2; have := h500 attempt; omega)]
      rw [if_neg (by intro h; injection h with h2; have := h500 attempt; omega)]
      rw [if_neg (by intro h; injection h with h2; have := h500 attempt; omega)]
      rw [if_neg (by intro h; exact absurd h.1 (by omega))]
      rw [if_neg (by
        intro h
        rcases h with h | h
        · rw [hA] at h; exact hcd h
        · rw [hA, hms] at h; exact absurd h (by simp))]
      rw [hA]
      simp
  | succ left ih =>
      intro attempt ha lastError
      have hlt : attempt < cfg.maxRetries := by omega
      rw [makeRequestGo.eq_2]
      simp only []
      rw [if_neg (by intro h; injection h with h2; have := h500 attempt; omega)]
      rw [if_neg (by intro h; injection h with h2; have := h500 attempt; omega)]
      rw [if_neg (by intro h; injection h with h2; have := h500 attempt; omega)]
      rw [if_pos ⟨hlt, by simp only [is5xx]; exact decide_eq_true (h500 attempt)⟩]
      rw [ih (attempt + 1) (by omega) (some (ms attempt))]
      refine congrArg _ ?_
      rw [List.range_succ_eq_map, List.map_cons, List.map_map]
      refine congrArg₂ _ (by rw [Nat.add_zero]) ?_
      refine List.map_congr_left (fun j _ => ?_)
      show cfg.retryBackoffFactor * 2 ^ (attempt + 1 + j) * 1000 =
    cfg.retryBackoffFactor * 2 ^ (attempt + (j + 1)) * 1000
      rw [show attempt + 1 + j = attempt + (j + 1) from by omega]

/-! ## Claim theorems -/

/-- C1 (the claim is FALSE on the code, which contradicts its own
documentation): `canonicalize` deep-copies with `JSON.parse(JSON.stringify(·))`
first, and `JSON.stringify` renders `NaN`, `Infinity` and `-Infinity` as
`null`, so `canonicalize` returns the string `"null"` (or embeds `null` for
nested occurrences) instead of raising a `CanonicalizeError` — even though
`normalizeFloat`, which the doc comment relies on, does raise exactly that
error and is unreachable for non-finite inputs. -/
theorem canonicalize_nonfinite_returns_null :
    canonicalize (.num .nan) = .ok "null" ∧
    canonicalize (.num .inf) = .ok "null" ∧
    canonicalize (.num .negInf) = .ok "null" ∧
    canonicalize (.obj (.cons "a" (.num .nan) .nil)) = .ok "\x7b\"a\":null\x7d" ∧
    canonicalize (.arr (.cons (.num .inf) .nil)) = .ok "[null]" ∧
    normalizeFloat .nan = .error (.canonicalizeError "NaN is not allowed in canonical JSON") ∧
    normalizeFloat .inf = .error (.canonicalizeError "Infinity is not allowed in canonical JSON") ∧
    normalizeFloat .negInf = .error (.canonicalizeError "Infinity is not allowed in canonical JSON") :=
  ⟨rfl, rfl, rfl, rfl, rfl, rfl, rfl, rfl⟩

/-- C7: number canonicalization uses no exponent notation and no insignificant
trailing zeros, and an integral value carries no decimal point.  The
JavaScript literals `1000.0` and `1e3` both denote the double whose
`Number::toString` rendering is `"1000"`, `1.50` the double rendering as
`"1.5"`, and `0.0001` the double rendering as `"0.0001"`; the last two
conjuncts exercise the exponent-expansion path on doubles whose rendering
does use exponent notation. -/
theorem canonicalize_number_normalization :
    canonicalize (.num (.fin "1000")) = .ok "1000" ∧
    canonicalize (.num (.fin "1.5")) = .ok "1.5" ∧
    canonicalize (.num (.fin "0.0001")) = .ok "0.0001" ∧
    canonicalize (.num (.fin "1e+21")) = .ok "1000000000000000000000" ∧
    canonicalize (.num (.fin "1e-7")) = .ok "0.0000001" :=
  ⟨rfl, rfl, rfl, rfl, rfl⟩

/-- C4 (the claim is FALSE on the code, whose dead connection-error branch
contradicts the evident intent): a transport-level connection failure
(`ECONNREFUSED`, `ENOTFOUND`) is NOT retried — the branch that recognizes
those codes constructs a `FarameshConnectionError` and discards it, so the
first such failure falls through to the generic `FarameshError` throw with
zero retries performed (the empty wait list), despite `maxRetries = 3`. -/
theorem connection_failure_not_retried :
    ({} : ExecConfig).maxRetries = 3 ∧
    makeRequest {} "GET" "/v1/actions/abc"
        (fun _ => .axiosFailure none (some "ECONNREFUSED") "connect ECONNREFUSED 127.0.0.1:8000") =
      (.error (.genericError "Request failed: connect ECONNREFUSED 127.0.0.1:8000" (some 0)), []) ∧
    makeRequest {} "GET" "/v1/actions/abc"
        (fun _ => .axiosFailure none (some "ENOTFOUND") "getaddrinfo ENOTFOUND api.example.com") =
      (.error (.genericError "Request failed: getaddrinfo ENOTFOUND api.example.com" (some 0)), []) :=
  ⟨rfl, rfl, rfl⟩

/-- C3: `computeRequestHash(payload)` equals `computeHash` of the payload with
every field of the fixed ephemeral exclusion set and every underscore-prefixed
field removed (so populating any such field cannot change the hash). -/
theorem computeRequestHash_strips_ephemeral_fields (payload : List (String × JSValue)) :
    computeRequestHash payload = computeHash (.obj (JSFields.ofList (stripEphemeralSpec payload))) := by
  have hflt : payload.filter (fun kv =>
      !(ACTION_EXCLUDE_FIELDS.contains kv.1 || headIs '_' kv.1.data)) = stripEphemeralSpec payload := by
    unfold stripEphemeralSpec
    exact List.filter_congr (fun kv _ => by rw [exclude_contains_eq kv.1])
  unfold computeRequestHash computeHash canonicalizeActionPayload
  rw [hflt]

/-- C8: `replayDecision` reports `success` exactly when its mismatch list is
empty; the mismatch list is the concatenation, in the fixed order outcome,
reason_code, request_hash, policy_hash, profile_hash, runtime_version, of one
diagnostic per disagreeing field; and a differing `request_hash` forces
`success = false` with a "request_hash mismatch" entry. -/
theorem replayDecision_success_iff_no_mismatches (o : Action) (r : GateDecision) :
    ((compareReplay o r).success = true ↔ (compareReplay o r).mismatches = []) ∧
    ((compareReplay o r).mismatches =
      (if jsOrStr o.outcome "" ≠ jsOrStr r.outcome "" then
        ["outcome: " ++ jsOrStr o.outcome "" ++ " != " ++ jsOrStr r.outcome ""] else []) ++
      (if jsOrStr o.reason_code "" ≠ jsOrStr r.reason_code "" then
        ["reason_code: " ++ jsOrStr o.reason_code "" ++ " != " ++ jsOrStr r.reason_code ""] else []) ++
      (if ¬ o.request_hash = r.request_hash then ["request_hash mismatch"] else []) ++
      (if ¬ o.policy_hash = r.policy_hash then
        ["policy_hash mismatch (policy may have changed)"] else []) ++
      (if ¬ o.profile_hash = r.profile_hash then
        ["profile_hash mismatch (profile may have changed)"] else []) ++
      (if ¬ o.runtime_version = r.runtime_version then
        ["runtime_version: " ++ optInterp o.runtime_version ++ " != " ++
          optInterp r.runtime_version] else [])) ∧
    (o.request_hash ≠ r.request_hash →
      (compareReplay o r).success = false ∧
      "request_hash mismatch" ∈ (compareReplay o r).mismatches) := by
  refine ⟨?_, rfl, ?_⟩
  · rw [show (compareReplay o r).success =
        decide ((compareReplay o r).mismatches.length = 0) from rfl, decide_eq_true_iff]
    exact List.length_eq_zero
  · intro hne
    have hmem : "request_hash mismatch" ∈ (compareReplay o r).mismatches := by
      simp [compareReplay, hne]
    refine ⟨?_, hmem⟩
    have hnil := List.ne_nil_of_mem hmem
    rw [show (compareReplay o r).success =
        decide ((compareReplay o r).mismatches.length = 0) from rfl]
    simp [List.length_eq_zero, hnil]

/-- C8 witness: at a concrete original action and decision differing only in
`request_hash`, the comparison fails with the "request_hash mismatch"
diagnostic. -/
theorem replayDecision_success_iff_no_mismatches_witness :
    (compareReplay { request_hash := some "aaaa" } { request_hash := some "bbbb" }).success = false ∧
    "request_hash mismatch" ∈
      (compareReplay { request_hash := some "aaaa" } { request_hash := some "bbbb" }).mismatches :=
  (replayDecision_success_iff_no_mismatches
    { request_hash := some "aaaa" } { request_hash := some "bbbb" }).2.2 (by decide)

/-- C9: with a truthy explicit token, `approveAction` / `denyAction` perform
exactly one approval POST and never fetch the action (no client-side
pending-approval check); an explicit empty-string token is falsy and behaves
like no token; on the no-token path the action is fetched first, a status
other than `pending_approval` raises the "is not pending approval" error
without any POST, a missing/empty `approval_token` raises the "Approval token
not found" error without any POST, and otherwise the fetched token is posted. -/
theorem approval_explicit_token_single_post :
    (∀ (id t : String) (reason : Option String) (fetched post : Action), t ≠ "" →
      approveActionRun id (some t) reason fetched post =
        ([.postApprovalCall id ⟨t, true, jsTruthy reason⟩], .ok post) ∧
      denyActionRun id (some t) reason fetched post =
        ([.postApprovalCall id ⟨t, false, jsTruthy reason⟩], .ok post)) ∧
    (∀ (id : String) (reason : Option String) (fetched post : Action),
      approveActionRun id (some "") reason fetched post =
        approveActionRun id none reason fetched post ∧
      denyActionRun id (some "") reason fetched post =
        denyActionRun id none reason fetched post) ∧
    (∀ (id : String) (reason : Option String) (fetched post : Action),
      fetched.status ≠ "pending_approval" →
      approveActionRun id none reason fetched post =
        ([.getActionCall id],
          .error (.genericError
            ("Action " ++ id ++ " is not pending approval (status: " ++ fetched.status ++ ")") none)) ∧
      denyActionRun id none reason fetched post =
        ([.getActionCall id],
          .error (.genericError
            ("Action " ++ id ++ " is not pending approval (status: " ++ fetched.status ++ ")") none))) ∧
    (∀ (id : String) (reason : Option String) (fetched post : Action),
      fetched.status = "pending_approval" →
      jsTruthy fetched.approval_token = none →
      approveActionRun id none reason fetched post =
        ([.getActionCall id],
          .error (.genericError ("Approval token not found for action " ++ id) none)) ∧
      denyActionRun id none reason fetched post =
        ([.getActionCall id],
          .error (.genericError ("Approval token not found for action " ++ id) none))) ∧
    (∀ (id tok : String) (reason : Option String) (fetched post : Action),
      fetched.status = "pending_approval" →
      jsTruthy fetched.approval_token = some tok →
      approveActionRun id none reason fetched post =
        ([.getActionCall id, .postApprovalCall id ⟨tok, true, jsTruthy reason⟩], .ok post) ∧
      denyActionRun id none reason fetched post =
        ([.getActionCall id, .postApprovalCall id ⟨tok, false, jsTruthy reason⟩], .ok post)) := by
  refine ⟨?_, ?_, ?_, ?_, ?_⟩
  · intro id t reason fetched post ht
    constructor <;> simp [approveActionRun, denyActionRun, jsTruthy, ht]
  · intro id reason fetched post
    constructor <;> simp [approveActionRun, denyActionRun, jsTruthy]
  · intro id reason fetched post hst
    constructor <;> simp [approveActionRun, denyActionRun, jsTruthy, hst]
  · intro id reason fetched post hst htok
    constructor <;>
      · simp only [approveActionRun, denyActionRun, hst, htok]
        rfl
  · intro id tok reason fetched post hst htok
    constructor <;>
      · simp only [approveActionRun, denyActionRun, hst, htok]
        rfl

/-- C9 witness: concrete runs — explicit token posts once without fetching
even when the fetched snapshot would not be pending; no-token on a
non-pending action raises the "is not pending approval" error. -/
theorem approval_explicit_token_single_post_witness :
    approveActionRun "a1" (some "tok") none { status := "succeeded" } { status := "approved" } =
      ([.postApprovalCall "a1" ⟨"tok", true, none⟩], .ok { status := "approved" }) ∧
    approveActionRun "a1" none none { status := "succeeded" } { status := "approved" } =
      ([.getActionCall "a1"],
        .error (.genericError "Action a1 is not pending approval (status: succeeded)" none)) := by
  constructor
  · exact ((approval_explicit_token_single_post.1 "a1" "tok" none
      { status := "succeeded" } { status := "approved" } (by decide)).1).trans (by decide)
  · exact ((approval_explicit_token_single_post.2.2.1 "a1" none
      { status := "succeeded" } { status := "approved" } (by decide)).1).trans (by decide)

theorem char_ext_toNat {a b : Char} (h : a.toNat = b.toNat) : a = b := by
  apply Char.ext
  apply UInt32.ext
  exact h

theorem char_valid_nat (c : Char) :
    c.toNat < 0xD800 ∨ (0xDFFF < c.toNat ∧ c.toNat < 0x110000) := by
  have h := c.valid
  unfold UInt32.isValidChar Nat.isValidChar at h
  exact h

theorem charUtf16_ne_nil (c : Char) : charUtf16 c ≠ [] := by
  unfold charUtf16
  split <;> simp

set_option maxRecDepth 2000 in
theorem utf16_flatten_inj : ∀ (l1 l2 : List Char),
    (l1.map charUtf16).flatten = (l2.map charUtf16).flatten → l1 = l2 := by
  intro l1
  induction l1 with
  | nil =>
      intro l2 h
      cases l2 with
      | nil => rfl
      | cons c t =>
          exfalso
          simp only [List.map_nil, List.flatten_nil, List.map_cons, List.flatten_cons] at h
          cases hc : charUtf16 c with
          | nil => exact charUtf16_ne_nil c hc
          | cons a as => rw [hc] at h; simp at h
  | cons c1 t1 ih =>
      intro l2 h
      cases l2 with
      | nil =>
          exfalso
          simp only [List.map_nil, List.flatten_nil, List.map_cons, List.flatten_cons] at h
          cases hc : charUtf16 c1 with
          | nil => exact charUtf16_ne_nil c1 hc
          | cons a as => rw [hc] at h; simp at h
      | cons c2 t2 =>
          simp only [List.map_cons, List.flatten_cons] at h
          have single : ∀ c : Char, c.toNat < 0x10000 → charUtf16 c = [c.toNat] := by
            intro c hc; unfold charUtf16; rw [if_pos hc]
          have pair : ∀ c : Char, ¬ c.toNat < 0x10000 → charUtf16 c =
              [0xD800 + (c.toNat - 0x10000) / 0x400, 0xDC00 + (c.toNat - 0x10000) % 0x400] := by
            intro c hc; unfold charUtf16; rw [if_neg hc]
          rcases Nat.lt_or_ge c1.toNat 0x10000 with h1 | h1 <;>
            rcases Nat.lt_or_ge c2.toNat 0x10000 with h2 | h2
          · rw [single c1 h1, single c2 h2] at h
            simp only [List.cons_append, List.nil_append, List.cons.injEq] at h
            obtain ⟨he, ht⟩ := h
            rw [char_ext_toNat he, ih t2 ht]
          · exfalso
            rw [single c1 h1, pair c2 (by omega)] at h
            simp only [List.cons_append, List.nil_append, List.cons.injEq] at h
            obtain ⟨he, ht⟩ := h
            rcases char_valid_nat c1 with hv | hv <;>
              rcases char_valid_nat c2 with hw | hw <;> omega
          · exfalso
            rw [pair c1 (by omega), single c2 h2] at h
            simp only [List.cons_append, List.nil_append, List.cons.injEq] at h
            obtain ⟨he, ht⟩ := h
            rcases char_valid_nat c1 with hv | hv <;>
              rcases char_valid_nat c2 with hw | hw <;> omega
          · rw [pair c1 (by omega), pair c2 (by omega)] at h
            simp only [List.cons_append, List.nil_append, List.cons.injEq] at h
            obtain ⟨he, hl, ht⟩ := h
            have hc : c1.toNat = c2.toNat := by
              rcases char_valid_nat c1 with hv | hv <;>
                rcases char_valid_nat c2 with hw | hw <;> omega
            rw [char_ext_toNat hc, ih t2 ht]

theorem strUtf16_inj {a b : String} (h : strUtf16 a = strUtf16 b) : a = b :=
  String.ext (utf16_flatten_inj a.data b.data h)

theorem unitsLe_total : ∀ a b, unitsLe a b = true ∨ unitsLe b a = true := by
  intro a
  induction a with
  | nil => intro b; left; rfl
  | cons x xs ih =>
      intro b
      cases b with
      | nil => right; rfl
      | cons y ys =>
          by_cases hxy : x < y
          · left; simp [unitsLe, hxy]
          · by_cases hyx : y < x
            · right; simp [unitsLe, hyx]
            · have hx : x = y := by omega
              subst hx
              rcases ih ys with h | h
              · left; simpa [unitsLe] using h
              · right; simpa [unitsLe] using h

theorem unitsLe_trans : ∀ a b c, unitsLe a b = true → unitsLe b c = true →
    unitsLe a c = true := by
  intro a
  induction a with
  | nil => intro b c _ _; rfl
  | cons x xs ih =>
      intro b c hab hbc
      cases b with
      | nil => simp [unitsLe] at hab
      | cons y ys =>
          cases c with
          | nil => simp [unitsLe] at hbc
          | cons z zs =>
              by_cases h1 : x < y
              · by_cases h2 : y < z
                · simp [unitsLe, show x < z from by omega]
                · by_cases h3 : z < y
                  · simp [unitsLe, h2, h3] at hbc
                  · have hyz : y = z := by omega
                    subst hyz
                    simp [unitsLe, h1]
              · by_cases h4 : y < x
                · simp [unitsLe, h1, h4] at hab
                · have hxy : x = y := by omega
                  subst hxy
                  simp only [unitsLe, if_neg (lt_irrefl x)] at hab
                  by_cases h2 : x < z
                  · simp [unitsLe, h2]
                  · by_cases h3 : z < x
                    · simp [unitsLe, h2, h3] at hbc
                    · have hxz : x = z := by omega
                      subst hxz
                      simp only [unitsLe, if_neg (lt_irrefl x)] at hbc ⊢
                      exact ih ys zs hab hbc

theorem unitsLe_antisymm_eq : ∀ a b, unitsLe a b = true → unitsLe b a = true → a = b := by
  intro a
  induction a with
  | nil =>
      intro b _ hba
      cases b with
      | nil => rfl
      | cons y ys => simp [unitsLe] at hba
  | cons x xs ih =>
      intro b hab hba
      cases b with
      | nil => simp [unitsLe] at hab
      | cons y ys =>
          by_cases h1 : x < y
          · simp [unitsLe, h1, show ¬ y < x from by omega] at hba
          · by_cases h2 : y < x
            · simp [unitsLe, h1, h2] at hab
            · have hxy : x = y := by omega
              subst hxy
              simp only [unitsLe, if_neg (lt_irrefl x)] at hab hba
              rw [ih ys hab hba]

theorem jsStrLe_antisymm {a b : String} (h1 : jsStrLe a b = true) (h2 : jsStrLe b a = true) :
    a = b :=
  strUtf16_inj (unitsLe_antisymm_eq _ _ h1 h2)

theorem insertSorted_perm (le : String → String → Bool) (k : String) :
    ∀ l, (insertSorted le k l).Perm (k :: l) := by
  intro l
  induction l with
  | nil => exact List.Perm.refl _
  | cons x xs ih =>
      unfold insertSorted
      split
      · exact List.Perm.refl _
      · exact (List.Perm.cons x ih).trans (List.Perm.swap k x xs)

theorem sortBy_perm (le : String → String → Bool) : ∀ l, (sortBy le l).Perm l := by
  intro l
  induction l with
  | nil => exact List.Perm.refl _
  | cons x xs ih =>
      unfold sortBy
      exact (insertSorted_perm le x (sortBy le xs)).trans (List.Perm.cons x ih)

theorem insertSorted_sorted (le : String → String → Bool)
    (htot : ∀ a b, le a b = true ∨ le b a = true)
    (htrans : ∀ a b c, le a b = true → le b c = true → le a c = true)
    (k : String) : ∀ l, l.Sorted (fun a b => le a b = true) →
      (insertSorted le k l).Sorted (fun a b => le a b = true) := by
  intro l
  induction l with
  | nil => intro _; simp [insertSorted]
  | cons x xs ih =>
      intro hs
      rw [List.sorted_cons] at hs
      unfold insertSorted
      split
      · rename_i hkx
        rw [List.sorted_cons]
        refine ⟨?_, by rw [List.sorted_cons]; exact hs⟩
        intro b hb
        rcases List.mem_cons.mp hb with hb | hb
        · rw [hb]; exact hkx
        · exact htrans k x b hkx (hs.1 b hb)
      · rename_i hkx
        have hxk : le x k = true := by
          rcases htot k x with h | h
          · exact absurd h hkx
          · exact h
        rw [List.sorted_cons]
        refine ⟨?_, ih hs.2⟩
        intro b hb
        rcases List.mem_cons.mp ((insertSorted_perm le k xs).mem_iff.mp hb) with hb | hb
        · rw [hb]; exact hxk
        · exact hs.1 b hb

theorem sortBy_sorted (le : String → String → Bool)
    (htot : ∀ a b, le a b = true ∨ le b a = true)
    (htrans : ∀ a b c, le a b = true → le b c = true → le a c = true) :
    ∀ l, (sortBy le l).Sorted (fun a b => le a b = true) := by
  intro l
  induction l with
  | nil => simp [sortBy]
  | cons x xs ih => exact insertSorted_sorted le htot htrans x _ ih

theorem sortBy_eq_of_perm {l1 l2 : List String} (hp : l1.Perm l2) :
    sortBy jsStrLe l1 = sortBy jsStrLe l2 := by
  have htot : ∀ a b : String, jsStrLe a b = true ∨ jsStrLe b a = true :=
    fun a b => unitsLe_total (strUtf16 a) (strUtf16 b)
  have htrans : ∀ a b c : String, jsStrLe a b = true → jsStrLe b c = true →
      jsStrLe a c = true :=
    fun a b c => unitsLe_trans (strUtf16 a) (strUtf16 b) (strUtf16 c)
  have hanti : IsAntisymm String (fun a b => jsStrLe a b = true) :=
    ⟨fun a b h1 h2 => jsStrLe_antisymm h1 h2⟩
  exact @List.eq_of_perm_of_sorted _ _ hanti _ _
    (((sortBy_perm jsStrLe l1).trans hp).trans (sortBy_perm jsStrLe l2).symm)
    (sortBy_sorted jsStrLe htot htrans l1) (sortBy_sorted jsStrLe htot htrans l2)

theorem keys_ofList (l : List (String × JSValue)) :
    (JSFields.ofList l).keys = l.map Prod.fst := by
  induction l with
  | nil => rfl
  | cons kv tl ih => simp [JSFields.ofList, JSFields.keys, ih]

theorem serializeFieldsWith_ofList (keyLe : String → String → Bool)
    (l : List (String × JSValue)) :
    serializeFieldsWith keyLe (JSFields.ofList l) =
      l.map (fun kv => (kv.1, serializeValueWith keyLe kv.2)) := by
  induction l with
  | nil => rfl
  | cons kv tl ih => simp [JSFields.ofList, serializeFieldsWith, ih]

theorem ofList_roundTripFields (l : List (String × JSValue)) :
    jsonRoundTripFields (JSFields.ofList l) =
      JSFields.ofList (l.filterMap (fun kv => (jsonRoundTrip kv.2).map (fun v => (kv.1, v)))) := by
  induction l with
  | nil => rfl
  | cons kv tl ih =>
      simp only [JSFields.ofList, jsonRoundTripFields, List.filterMap_cons]
      cases h : jsonRoundTrip kv.2 with
      | none => simpa [h] using ih
      | some v => simp [h, ih, JSFields.ofList]

theorem filterMapRT_keys_sublist (l : List (String × JSValue)) :
    ((l.filterMap (fun kv => (jsonRoundTrip kv.2).map (fun v => (kv.1, v)))).map
        Prod.fst).Sublist (l.map Prod.fst) := by
  induction l with
  | nil => simp
  | cons kv tl ih =>
      simp only [List.filterMap_cons, List.map_cons]
      cases h : jsonRoundTrip kv.2 with
      | none => exact ih.cons kv.1
      | some v => simpa using List.Sublist.cons₂ kv.1 ih

theorem lookup_map_val {β : Type} (g : JSValue → β) (l : List (String × JSValue)) (k : String) :
    (l.map (fun kv => (kv.1, g kv.2))).lookup k = (l.lookup k).map g := by
  induction l with
  | nil => rfl
  | cons kv tl ih =>
      simp only [List.map_cons, List.lookup]
      cases h : k == kv.1 <;> simp [h, ih]

theorem perm_lookup_eq {α : Type} : ∀ {l1 l2 : List (String × α)}, l1.Perm l2 →
    (l1.map Prod.fst).Nodup → ∀ k, l1.lookup k = l2.lookup k := by
  intro l1 l2 hp
  induction hp with
  | nil => intro _ _; rfl
  | cons p hperm ih =>
      intro hnd k
      obtain ⟨a, b⟩ := p
      rw [List.map_cons] at hnd
      have hnd2 := hnd.of_cons
      cases h : k == a <;> simp [List.lookup, h, ih hnd2 k]
  | swap p q t =>
      intro hnd k
      obtain ⟨a, b⟩ := p
      obtain ⟨c, d⟩ := q
      rw [List.map_cons, List.map_cons] at hnd
      have hca : c ≠ a := by
        intro he
        exact (List.nodup_cons.mp hnd).1 (by rw [he]; exact List.mem_cons_self _ _)
      cases h1 : k == a <;> cases h2 : k == c <;>
        simp [List.lookup, h1, h2]
      exact absurd ((eq_of_beq h2).symm.trans (eq_of_beq h1)) hca
  | trans h12 h23 ih12 ih23 =>
      intro hnd k
      exact (ih12 hnd k).trans (ih23 (((h12.map Prod.fst).nodup_iff).mp hnd) k)

/-- The two keys witnessing that UTF-16 code-unit order and UTF-8 byte order
disagree: U+FFFF (a one-unit BMP character, three UTF-8 bytes `ef bf bf`) and
U+10000 (a surrogate pair starting `0xD800`, four UTF-8 bytes starting
`f0`). -/
def keyBmpMax : String := String.mk [Char.ofNat 0xFFFF]

def keySupp : String := String.mk [Char.ofNat 0x10000]

/-- C2 counterexample: on the mapping with keys U+FFFF and U+10000, the code
emits the U+10000 entry first (JavaScript's default sort compares UTF-16 code
units, and its high surrogate `0xD800` precedes `0xFFFF`), while byte-wise
lexicographic (UTF-8 byte) comparison puts U+FFFF first — so the claim's
key order is violated and the byte-order canonicalization of the same mapping
differs. -/
theorem canonicalize_key_order_not_bytewise :
    byteLe keyBmpMax keySupp = true ∧
    jsStrLe keySupp keyBmpMax = true ∧
    canonicalize (.obj (.cons keyBmpMax .null (.cons keySupp .null .nil))) =
      .ok ("\x7b\"" ++ keySupp ++ "\":null,\"" ++ keyBmpMax ++ "\":null\x7d") ∧
    canonicalizeBytewise (.obj (.cons keyBmpMax .null (.cons keySupp .null .nil))) =
      .ok ("\x7b\"" ++ keyBmpMax ++ "\":null,\"" ++ keySupp ++ "\":null\x7d") ∧
    canonicalize (.obj (.cons keyBmpMax .null (.cons keySupp .null .nil))) ≠
      canonicalizeBytewise (.obj (.cons keyBmpMax .null (.cons keySupp .null .nil))) :=
  ⟨rfl, rfl, rfl, rfl, by decide⟩

/-- C2 (amended): `canonicalize` emits mapping entries with keys ordered by
UTF-16 code-unit comparison (the default `Array.sort()` order, which agrees
with byte-wise UTF-8 order on keys without supplementary-plane characters),
and consequently for mappings that are equal as sets of key-value pairs and
differ only in insertion order the canonical strings coincide. -/
theorem canonicalize_mapping_insertion_order_invariant
    (l1 l2 : List (String × JSValue))
    (hnd : (l1.map Prod.fst).Nodup) (hp : l1.Perm l2) :
    canonicalize (.obj (JSFields.ofList l1)) = canonicalize (.obj (JSFields.ofList l2)) := by
  unfold canonicalize
  simp only [jsonRoundTrip]
  rw [ofList_roundTripFields, ofList_roundTripFields]
  have hpL : (l1.filterMap (fun kv => (jsonRoundTrip kv.2).map (fun v => (kv.1, v)))).Perm
      (l2.filterMap (fun kv => (jsonRoundTrip kv.2).map (fun v => (kv.1, v)))) :=
    hp.filterMap _
  have hndL : ((l1.filterMap (fun kv => (jsonRoundTrip kv.2).map (fun v => (kv.1, v)))).map
      Prod.fst).Nodup :=
    (filterMapRT_keys_sublist l1).nodup hnd
  unfold serializeValue
  simp only [serializeValueWith]
  rw [keys_ofList, keys_ofList, serializeFieldsWith_ofList, serializeFieldsWith_ofList]
  rw [sortBy_eq_of_perm (hpL.map Prod.fst)]
  refine congrArg _ (congrArg _ (List.map_congr_left (fun k _ => ?_)))
  rw [lookup_map_val, lookup_map_val, perm_lookup_eq hpL hndL k]

/-- C2 witness: two concrete two-entry mappings differing only in insertion
order canonicalize identically. -/
theorem canonicalize_mapping_insertion_order_invariant_witness :
    canonicalize (.obj (JSFields.ofList [("b", .bool true), ("a", .str "x")])) =
      canonicalize (.obj (JSFields.ofList [("a", .str "x"), ("b", .bool true)])) :=
  canonicalize_mapping_insertion_order_invariant
    [("b", .bool true), ("a", .str "x")] [("a", .str "x"), ("b", .bool true)]
    (by decide) (List.Perm.swap ("a", JSValue.str "x") ("b", JSValue.bool true) [])

theorem blockUntilApproved_reach (ga : Nat → Action) (poll timeout k : Nat)
    (hpoll : 0 < poll) (hk : k * poll ≤ timeout)
    (hpend : ∀ j, j < k → (ga j).status = "pending_approval") :
    blockUntilApproved ga poll timeout =
      blockUntilApprovedGo ga poll timeout (timeout / poll + 2 - k) k := by
  have hkd : k ≤ timeout / poll := (Nat.le_div_iff_mul_le hpoll).mpr hk
  unfold blockUntilApproved
  have hs := blockGo_skip ga poll timeout k (timeout / poll + 2) 0
    (fun j _ hj => hpend j (by omega))
    (fun j _ hj => by
      have h1 : j * poll ≤ k * poll := Nat.mul_le_mul_right poll (by omega)
      omega)
    (by omega)
  simpa using hs

/-- C6: `blockUntilApproved` polls until the status leaves `pending_approval`:
with the first `k` observations pending and observation `k` within the
deadline, an `approved` status returns that action, a `denied` status fails
with a denial error whose message carries the server's reason, and an
already-processed `allowed` / `succeeded` / `failed` status returns the action
as-is; if every observation within the deadline stays pending, the call fails
with a timeout error. -/
theorem blockUntilApproved_polling_behavior :
    (∀ (ga : Nat → Action) (poll timeout k : Nat), 0 < poll → k * poll ≤ timeout →
      (∀ j, j < k → (ga j).status = "pending_approval") →
      (ga k).status = "approved" →
      blockUntilApproved ga poll timeout = .ok (ga k)) ∧
    (∀ (ga : Nat → Action) (poll timeout k : Nat), 0 < poll → k * poll ≤ timeout →
      (∀ j, j < k → (ga j).status = "pending_approval") →
      (ga k).status = "denied" →
      blockUntilApproved ga poll timeout =
        .err (.deniedError ("Action denied: " ++ jsOrStr (ga k).reason "Action denied"))) ∧
    (∀ (ga : Nat → Action) (poll timeout k : Nat), 0 < poll → k * poll ≤ timeout →
      (∀ j, j < k → (ga j).status = "pending_approval") →
      ((ga k).status = "allowed" ∨ (ga k).status = "succeeded" ∨ (ga k).status = "failed") →
      blockUntilApproved ga poll timeout = .ok (ga k)) ∧
    (∀ (ga : Nat → Action) (poll timeout : Nat), 0 < poll →
      (∀ j, j * poll ≤ timeout → (ga j).status = "pending_approval") →
      blockUntilApproved ga poll timeout =
        .err (.timeoutError ("Timeout waiting for approval after " ++ toString timeout ++ "ms"))) := by
  refine ⟨?_, ?_, ?_, ?_⟩
  · intro ga poll timeout k hpoll hk hpend hst
    rw [blockUntilApproved_reach ga poll timeout k hpoll hk hpend]
    have hkd : k ≤ timeout / poll := (Nat.le_div_iff_mul_le hpoll).mpr hk
    rw [show timeout / poll + 2 - k = (timeout / poll + 1 - k) + 1 from by omega]
    rw [blockUntilApprovedGo.eq_2]
    rw [if_neg (by omega)]
    simp [hst]
  · intro ga poll timeout k hpoll hk hpend hst
    rw [blockUntilApproved_reach ga poll timeout k hpoll hk hpend]
    have hkd : k ≤ timeout / poll := (Nat.le_div_iff_mul_le hpoll).mpr hk
    rw [show timeout / poll + 2 - k = (timeout / poll + 1 - k) + 1 from by omega]
    rw [blockUntilApprovedGo.eq_2]
    rw [if_neg (by omega)]
    simp [hst]
  · intro ga poll timeout k hpoll hk hpend hst
    rw [blockUntilApproved_reach ga poll timeout k hpoll hk hpend]
    have hkd : k ≤ timeout / poll := (Nat.le_div_iff_mul_le hpoll).mpr hk
    rw [show timeout / poll + 2 - k = (timeout / poll + 1 - k) + 1 from by omega]
    rw [blockUntilApprovedGo.eq_2]
    rw [if_neg (by omega)]
    rcases hst with h | h | h <;> simp [h]
  · intro ga poll timeout hpoll hpend
    have hbound : ∀ j, j ≤ timeout / poll → j * poll ≤ timeout := by
      intro j hj
      calc j * poll ≤ (timeout / poll) * poll := Nat.mul_le_mul_right poll hj
        _ ≤ timeout := Nat.div_mul_le_self timeout poll
    unfold blockUntilApproved
    have hs := blockGo_skip ga poll timeout (timeout / poll + 1) (timeout / poll + 2) 0
      (fun j _ hj => hpend j (hbound j (by omega)))
      (fun j _ hj => hbound j (by omega))
      (by omega)
    rw [show (0 : Nat) + (timeout / poll + 1) = timeout / poll + 1 from by omega] at hs
    rw [show timeout / poll + 2 - (timeout / poll + 1) = 0 + 1 from by omega] at hs
    rw [hs, blockUntilApprovedGo.eq_2]
    rw [if_pos ?_]
    have hdm := Nat.div_add_mod timeout poll
    have hmlt : timeout % poll < poll := Nat.mod_lt _ hpoll
    have hexp : (timeout / poll + 1) * poll = poll * (timeout / poll) + poll := by ring
    omega

/-- C6 witness: concrete runs — first poll approved returns the action; a
`denied` snapshot with reason "too risky" fails with that reason in the
message; an `allowed` snapshot returns as-is; an always-pending server times
out. -/
theorem blockUntilApproved_polling_behavior_witness :
    blockUntilApproved (fun _ => { status := "approved" }) 1000 5000 =
      .ok { status := "approved" } ∧
    blockUntilApproved (fun _ => { status := "denied", reason := some "too risky" }) 1000 5000 =
      .err (.deniedError "Action denied: too risky") ∧
    blockUntilApproved (fun _ => { status := "allowed" }) 1000 5000 =
      .ok { status := "allowed" } ∧
    blockUntilApproved (fun _ => { status := "pending_approval" }) 1000 3000 =
      .err (.timeoutError ("Timeout waiting for approval after " ++ toString 3000 ++ "ms")) := by
  refine ⟨?_, ?_, ?_, ?_⟩
  · exact blockUntilApproved_polling_behavior.1 (fun _ => { status := "approved" }) 1000 5000 0
      (by omega) (by omega) (fun j hj => absurd hj (by omega)) rfl
  · exact (blockUntilApproved_polling_behavior.2.1
      (fun _ => { status := "denied", reason := some "too risky" }) 1000 5000 0
      (by omega) (by omega) (fun j hj => absurd hj (by omega)) rfl).trans (by decide)
  · exact blockUntilApproved_polling_behavior.2.2.1 (fun _ => { status := "allowed" }) 1000 5000 0
      (by omega) (by omega) (fun j hj => absurd hj (by omega)) (Or.inl rfl)
  · exact blockUntilApproved_polling_behavior.2.2.2
      (fun _ => { status := "pending_approval" }) 1000 3000 (by omega) (fun j hj => rfl)

/-- C5: a 401 / 404 / 422 response on the first attempt is surfaced
immediately as the corresponding terminal error with zero retries (empty wait
list); a 500, 500, success sequence under `maxRetries ≥ 2` succeeds on the
third attempt with backoff waits `backoffFactor * 2^0` and `backoffFactor *
2^1` seconds; and when every attempt fails with 5xx, `maxRetries` backoff
waits `backoffFactor * 2^attempt` are performed and the error surfaced
carries the last attempt's server status and message. -/
theorem terminal_errors_immediate_and_5xx_backoff :
    (∀ (cfg : ExecConfig) (method path : String) (script : Nat → Attempt)
        (code : Option String) (msg : String),
      script 0 = .axiosFailure (some 401) code msg →
      makeRequest cfg method path script =
        (.error (.authError ("Authentication failed (401) on " ++ path ++ ": " ++ msg)), [])) ∧
    (∀ (cfg : ExecConfig) (method path : String) (script : Nat → Attempt)
        (code : Option String) (msg : String),
      script 0 = .axiosFailure (some 404) code msg →
      makeRequest cfg method path script =
        (.error (.notFoundError ("Resource not found (404) on " ++ path)), [])) ∧
    (∀ (cfg : ExecConfig) (method path : String) (script : Nat → Attempt)
        (code : Option String) (msg : String),
      script 0 = .axiosFailure (some 422) code msg →
      makeRequest cfg method path script =
        (.error (.validationError ("Validation error (422) on " ++ path ++ ": " ++ msg)), [])) ∧
    (∀ (cfg : ExecConfig) (method path : String) (script : Nat → Attempt) (r : RespData)
        (s0 s1 : Nat) (c0 c1 : Option String) (m0 m1 : String),
      2 ≤ cfg.maxRetries →
      script 0 = .axiosFailure (some s0) c0 m0 → 500 ≤ s0 →
      script 1 = .axiosFailure (some s1) c1 m1 → 500 ≤ s1 →
      script 2 = .success r →
      ¬(method = "POST" ∧ path = "/v1/actions" ∧
        (r.status = some "denied" ∨ (r.decision = some "deny" ∧ r.status ≠ some "pending_approval"))) →
      makeRequest cfg method path script =
        (.ok r, [cfg.retryBackoffFactor * 2 ^ 0 * 1000, cfg.retryBackoffFactor * 2 ^ 1 * 1000])) ∧
    (∀ (cfg : ExecConfig) (method path : String) (st : Nat → Nat)
        (cd : Nat → Option String) (ms : Nat → String),
      (∀ i, 500 ≤ st i) →
      cd cfg.maxRetries ≠ some "ECONNABORTED" →
      strContainsSubstr (ms cfg.maxRetries) "timeout" = false →
      makeRequest cfg method path (fun i => .axiosFailure (some (st i)) (cd i) (ms i)) =
        (.error (.genericError ("Request failed: " ++ ms cfg.maxRetries) (some (st cfg.maxRetries))),
         (List.range cfg.maxRetries).map (fun j => cfg.retryBackoffFactor * 2 ^ j * 1000))) := by
  refine ⟨?_, ?_, ?_, ?_, ?_⟩
  · intro cfg method path script code msg hs
    unfold makeRequest
    rw [makeRequestGo.eq_2, hs]
    simp
  · intro cfg method path script code msg hs
    unfold makeRequest
    rw [makeRequestGo.eq_2, hs]
    simp
  · intro cfg method path script code msg hs
    unfold makeRequest
    rw [makeRequestGo.eq_2, hs]
    simp
  · intro cfg method path script r s0 s1 c0 c1 m0 m1 h2 hs0 h500a hs1 h500b hs2 hnd
    unfold makeRequest
    obtain ⟨m, hm⟩ : ∃ m, cfg.maxRetries = m + 2 := ⟨cfg.maxRetries - 2, by omega⟩
    rw [hm, show m + 2 + 1 = m + 1 + 1 + 1 from by omega]
    rw [makeRequestGo.eq_2, hs0]
    simp only []
    rw [if_neg (by intro h; injection h with h3; omega)]
    rw [if_neg (by intro h; injection h with h3; omega)]
    rw [if_neg (by intro h; injection h with h3; omega)]
    rw [if_pos ⟨by omega, by simp only [is5xx]; exact decide_eq_true h500a⟩]
    rw [makeRequestGo.eq_2, hs1]
    simp only []
    rw [if_neg (by intro h; injection h with h3; omega)]
    rw [if_neg (by intro h; injection h with h3; omega)]
    rw [if_neg (by intro h; injection h with h3; omega)]
    rw [if_pos ⟨by omega, by simp only [is5xx]; exact decide_eq_true h500b⟩]
    rw [makeRequestGo.eq_2, hs2]
    simp only []
    rw [if_neg hnd]
  · intro cfg method path st cd ms h500 hcd hms
    unfold makeRequest
    rw [makeGo_all5xx cfg method path st cd ms h500 hcd hms cfg.maxRetries 0 (by omega) none]
    refine congrArg _ ?_
    exact List.map_congr_left (fun j _ => by rw [Nat.zero_add])

/-- C5 witness: concrete scripts under the default configuration
(`maxRetries = 3`) — an immediate 401 with zero waits; 500, 500, 200
succeeding on the third attempt with the two backoff waits; and three
consecutive 500s exhausting the retries with the last server error
surfaced. -/
theorem terminal_errors_immediate_and_5xx_backoff_witness :
    makeRequest {} "GET" "/v1/actions/a" (fun _ => .axiosFailure (some 401) none "unauthorized") =
      (.error (.authError ("Authentication failed (401) on " ++ "/v1/actions/a" ++ ": " ++
        "unauthorized")), []) ∧
    makeRequest {} "GET" "/v1/actions/a"
        (fun i => if i = 0 then .axiosFailure (some 500) none "boom0"
          else if i = 1 then .axiosFailure (some 500) none "boom1"
          else .success {}) =
      (.ok {}, [({} : ExecConfig).retryBackoffFactor * 2 ^ 0 * 1000,
        ({} : ExecConfig).retryBackoffFactor * 2 ^ 1 * 1000]) ∧
    makeRequest {} "GET" "/v1/actions/a" (fun _ => .axiosFailure (some 500) none "boom") =
      (.error (.genericError ("Request failed: " ++ "boom") (some 500)),
       (List.range 3).map (fun j => ({} : ExecConfig).retryBackoffFactor * 2 ^ j * 1000)) := by
  refine ⟨?_, ?_, ?_⟩
  · exact terminal_errors_immediate_and_5xx_backoff.1 {} "GET" "/v1/actions/a" _ none
      "unauthorized" rfl
  · exact terminal_errors_immediate_and_5xx_backoff.2.2.2.1 {} "GET" "/v1/actions/a" _ {}
      500 500 none none "boom0" "boom1" (by decide) rfl (by omega) rfl (by omega) rfl (by decide)
  · exact terminal_errors_immediate_and_5xx_backoff.2.2.2.2 {} "GET" "/v1/actions/a"
      (fun _ => 500) (fun _ => none) (fun _ => "boom") (fun _ => le_refl 500) (by decide)
      (by decide)

/-- C10: every `configure` call recomputes `baseUrl`, `token`, `timeoutMs`,
`maxRetries` and `retryBackoffFactor` from the options, environment and
built-in defaults only (never from the previous configuration), while the
three instrumentation callbacks fall back to the previously configured
callbacks when omitted; hence `configure({})` after `configure({token})`
drops the token (absent an environment token) but keeps installed callbacks. -/
theorem configure_rebuilds_config_callbacks_fall_back :
    (∀ (existing : Option ClientConfig) (opts : ClientConfigOpts) (env : EnvVars),
      (configure existing opts env).baseUrl = (configure none opts env).baseUrl ∧
      (configure existing opts env).token = (configure none opts env).token ∧
      (configure existing opts env).timeoutMs = (configure none opts env).timeoutMs ∧
      (configure existing opts env).maxRetries = (configure none opts env).maxRetries ∧
      (configure existing opts env).retryBackoffFactor =
        (configure none opts env).retryBackoffFactor ∧
      (configure existing opts env).onRequestStart =
        opts.onRequestStart.orElse (fun _ => existing.bind (fun c => c.onRequestStart)) ∧
      (configure existing opts env).onRequestEnd =
        opts.onRequestEnd.orElse (fun _ => existing.bind (fun c => c.onRequestEnd)) ∧
      (configure existing opts env).onError =
        opts.onError.orElse (fun _ => existing.bind (fun c => c.onError))) ∧
    ((configure none { token := some "tok", onError := some 7 } {}).token = some "tok" ∧
     (configure (some (configure none { token := some "tok", onError := some 7 } {})) {} {}).token
       = none ∧
     (configure (some (configure none { token := some "tok", onError := some 7 } {})) {} {}).onError
       = some 7) :=
  ⟨fun _ _ _ => ⟨rfl, rfl, rfl, rfl, rfl, rfl, rfl, rfl⟩, rfl, rfl, rfl⟩

end Faramesh
